import Mathlib

/-!
Verification of the Analysis Report Rendering Engine of the
Startologer frontend (ResultDashboard component, result-dashboard source).

The TypeScript component is shallowly embedded:
* JavaScript numbers are modelled as rationals; Math.round is the
  floor of x + 1/2 (round half toward positive infinity).
* JavaScript objects used as string-keyed records are modelled as
  association lists in key-insertion order; property access is the
  first matching binding.
* The DOM, timers and the Chart.js registry are modelled explicitly as
  state: a render pass is a state transformer over the component state,
  and the DOM environment records which canvases exist and whether their
  size probe succeeds.
* The string normalize call with the NFKC form is an external Unicode
  library routine wrapped in try/catch; sanitizeTextWith takes it as a
  parameter, and nfkcFrag is a fragment of real NFKC behavior (the
  compatibility mapping of superscript one and canonical composition of
  a letter with a following combining acute, which a zero-width space
  blocks), faithful on the inputs where it is used.  All regex
  replacements of sanitizeText, the stage regexes and the whitespace
  splitting are modelled directly over code-point lists.
* A received result is parsed JSON with no validation, so a benchmark
  entry may be any value, including null.  BenchVal and the raw series
  computation metricSeriesRaw model this: a property access on a null
  or missing entry is a thrown TypeError (an Except error), exactly as
  in the per-key reads of the render pass.  The AnalysisResult record
  is the well-shaped restriction of that input space, which the rest of
  the pipeline quantifies over.
-/

namespace Startologer

/-- JavaScript Math.round on a rational: round half toward positive infinity. -/
def jsRound (q : ℚ) : ℤ := ⌊q + 1/2⌋

/-! ## Character helpers (JavaScript semantics) -/

/-- Membership in the JavaScript regex whitespace class (backslash-s):
space, tab, line feed, vertical tab, form feed, carriage return,
no-break space, ogham space mark, the U+2000..U+200A range, line and
paragraph separators, narrow no-break space, medium mathematical space,
ideographic space and the byte-order mark. -/
def isJsWs (c : Char) : Bool :=
  c.toNat = 0x20 || c.toNat = 0x9 || c.toNat = 0xA || c.toNat = 0xB ||
  c.toNat = 0xC || c.toNat = 0xD || c.toNat = 0xA0 || c.toNat = 0x1680 ||
  (0x2000 ≤ c.toNat && c.toNat ≤ 0x200A) || c.toNat = 0x2028 ||
  c.toNat = 0x2029 || c.toNat = 0x202F || c.toNat = 0x205F ||
  c.toNat = 0x3000 || c.toNat = 0xFEFF

/-- ASCII lower-casing of one character (String.prototype.toLowerCase on
the ASCII range, which is the only range the embedded code relies on). -/
def asciiLower (c : Char) : Char :=
  if 'A' ≤ c ∧ c ≤ 'Z' then Char.ofNat (c.toNat + 32) else c

/-- ASCII upper-casing of one character. -/
def asciiUpper (c : Char) : Char :=
  if 'a' ≤ c ∧ c ≤ 'z' then Char.ofNat (c.toNat - 32) else c

/-- toLowerCase on a whole string. -/
def asciiLowerStr (s : String) : String := String.mk (s.data.map asciiLower)

/-- Drop leading JavaScript whitespace. -/
def skipWs : List Char → List Char
  | [] => []
  | c :: rest => if isJsWs c then skipWs rest else c :: rest

/-- String.prototype.trim: drop whitespace from both ends. -/
def trimWs (l : List Char) : List Char :=
  ((l.dropWhile isJsWs).reverse.dropWhile isJsWs).reverse

/-- Does the string contain the character?  (String.prototype.includes
with a single-character needle.) -/
def strContains (s : String) (c : Char) : Bool := s.data.contains c

/-- Scan every start position of the list with a pattern predicate, the
way a regex engine looks for a leftmost match (the end position included). -/
def scanContains (p : List Char → Bool) : List Char → Bool
  | [] => p []
  | c :: rest => p (c :: rest) || scanContains p rest

/-- Substring containment: regex test of a literal pattern. -/
def containsSub (pat : List Char) (l : List Char) : Bool :=
  scanContains (fun suffix => pat.isPrefixOf suffix) l

/-! ## Data model: AnalysisResult (api.service interface) -/

/-- One benchmark entry: companyValue, median, percentile, status.
Fields are optional because the component treats the received JSON
defensively (absent fields become the default of the or-else operator). -/
structure Benchmark where
  companyValue : Option ℚ
  median : Option ℚ
  percentile : Option ℚ
  status : Option String
deriving DecidableEq

/-- One LLM estimate entry: median and unit. -/
structure Estimate where
  median : Option ℚ
  unit : Option String
deriving DecidableEq

/-- The llmBenchmark block: estimates and relative maps. -/
structure LlmBenchmark where
  estimates : List (String × Estimate)
  relative : List (String × String)
deriving DecidableEq

/-- The composite score block. -/
structure Score where
  composite : Option ℚ
  verdict : Option String
deriving DecidableEq

/-- An extracted-metric value as seen after the Number coercion of the
component: either a finite number or a value whose coercion is not
finite (NaN or an infinity). -/
inductive ExtVal where
  | fin : ℚ → ExtVal
  | nonfinite : ExtVal
deriving DecidableEq

/-- The slice of AnalysisResult the chart pipeline reads.  An absent
benchmarks record and an empty one are identified, matching the
or-else-empty-object access in the component. -/
structure AnalysisResult where
  benchmarks : List (String × Benchmark)
  llmBenchmark : Option LlmBenchmark
  score : Option Score
  extractedMetrics : Option (List (String × ExtVal))
deriving DecidableEq

/-- llmBenchmark estimates or the empty record. -/
def estimatesOf (a : AnalysisResult) : List (String × Estimate) :=
  (a.llmBenchmark.map LlmBenchmark.estimates).getD []

/-- llmBenchmark relative or the empty record. -/
def relativeOf (a : AnalysisResult) : List (String × String) :=
  (a.llmBenchmark.map LlmBenchmark.relative).getD []

/-- score.composite when score is present and composite is not null. -/
def composite (a : AnalysisResult) : Option ℚ :=
  a.score.bind Score.composite

/-! ## ChartDataMapper -/

/-- Key-set selection of the render pass: keys of benchmarks; if there
are none and the estimates record is non-empty, the estimate keys with
the use-estimates flag set. -/
def chartKeys (a : AnalysisResult) : List String × Bool :=
  let keys := a.benchmarks.map Prod.fst
  if keys.isEmpty && !((estimatesOf a).map Prod.fst).isEmpty then
    ((estimatesOf a).map Prod.fst, true)
  else (keys, false)

/-- Percentile of one key, as computed inside the render pass:
without estimates, round of percentile-or-zero times 100; with
estimates, the lower-cased relative label mapped through
above to 75, near to 50, below to 25, anything else to 50. -/
def percentileFor (useEstimates : Bool) (bench : List (String × Benchmark))
    (relative : List (String × String)) (k : String) : ℤ :=
  if !useEstimates then
    jsRound ((((bench.lookup k).bind Benchmark.percentile).getD 0) * 100)
  else
    let rel := asciiLowerStr ((relative.lookup k).getD "")
    if rel = "above" then 75
    else if rel = "near" then 50
    else if rel = "below" then 25
    else 50

/-- The alias table of getCompanyMetricValue. -/
def aliasesFor (key : String) : List String :=
  if key = "growthYoY" then ["growthYoY", "yoy", "growth_yoy"]
  else if key = "growthMoM" then ["growthMoM", "mom", "growth_mom"]
  else if key = "churnRate" then ["churnRate", "churn"]
  else if key = "grossMargin" then ["grossMargin", "margin"]
  else []

/-- First alias with a non-null extracted value. -/
def lookupAliases (em : List (String × ExtVal)) : List String → Option ExtVal
  | [] => none
  | aName :: rest =>
    match em.lookup aName with
    | some v => some v
    | none => lookupAliases em rest

/-- Direct key lookup, then the alias fallback, as in getCompanyMetricValue. -/
def resolveExtracted (em : List (String × ExtVal)) (key : String) : Option ExtVal :=
  match em.lookup key with
  | some v => some v
  | none => lookupAliases em (aliasesFor key)

/-- Number coercion result, keeping only finite values. -/
def toFiniteNumber : ExtVal → Option ℚ
  | ExtVal.fin q => some q
  | ExtVal.nonfinite => none

/-- The four percent-like metric keys. -/
def percentKeys : List String := ["growthYoY", "growthMoM", "churnRate", "grossMargin"]

/-- getCompanyMetricValue: map an extracted metric to a chart value and
normalize percent-like metrics by unit.  Returns none where the source
returns null. -/
def getCompanyMetricValue (em? : Option (List (String × ExtVal)))
    (key : String) (unit : String) : Option ℚ :=
  match em? with
  | none => none
  | some em =>
    match resolveExtracted em key with
    | none => none
    | some ev =>
      match toFiniteNumber ev with
      | none => none
      | some num =>
        let u := asciiLowerStr unit
        if key ∈ percentKeys then
          if strContains u '%' then
            some (if num ≤ 1 then num * 100 else num)
          else
            some (if num ≤ 1 then num * 100 else num)
        else some num

/-- Unit map built in the render pass when estimates are used. -/
def unitFor (a : AnalysisResult) (k : String) : String :=
  (((estimatesOf a).lookup k).bind Estimate.unit).getD ""

/-- Company value of one key in the render pass: benchmark companyValue
(NaN modelled as none) without estimates, getCompanyMetricValue with. -/
def companyValFor (a : AnalysisResult) (useEstimates : Bool) (k : String) : Option ℚ :=
  if !useEstimates then (a.benchmarks.lookup k).bind Benchmark.companyValue
  else getCompanyMetricValue a.extractedMetrics k (unitFor a k)

/-- Median of one key in the render pass. -/
def medianFor (a : AnalysisResult) (useEstimates : Bool) (k : String) : ℚ :=
  if useEstimates then (((estimatesOf a).lookup k).bind Estimate.median).getD 0
  else ((a.benchmarks.lookup k).bind Benchmark.median).getD 0

/-- The per-metric series the render pass feeds to the charts:
percentiles, company values and medians, index-aligned over the chosen
key set. -/
structure MetricSeries where
  percentiles : List ℤ
  companyVals : List (Option ℚ)
  medians : List ℚ
deriving DecidableEq

/-- The series computed by the render pass for a result. -/
def metricSeries (a : AnalysisResult) : MetricSeries :=
  let ku := chartKeys a
  { percentiles := ku.1.map (percentileFor ku.2 a.benchmarks (relativeOf a))
    companyVals := ku.1.map (companyValFor a ku.2)
    medians := ku.1.map (medianFor a ku.2) }

/-- hideCompany: every company value is the no-value sentinel. -/
def hideCompany (a : AnalysisResult) : Bool :=
  (metricSeries a).companyVals.all Option.isNone

/-! ## Raw benchmark entries and the throwing series computation

The benchmarks record of a received result is parsed JSON, so an entry
may be null (or absent) rather than a well-shaped object.  The render
pass reads bench-of-k dot percentile, dot companyValue and dot median;
on a null or missing entry that property access throws a TypeError.
These definitions model the same per-key reads over raw entries, with
the thrown error as an Except error, so that totality claims range over
ill-formed input too. -/

/-- A raw benchmark entry: null, or a well-shaped object. -/
inductive BenchVal where
  | nullv
  | obj : Benchmark → BenchVal
deriving DecidableEq

/-- A property read bench-of-k dot field: the field of a well-shaped
entry, a thrown TypeError on a null or missing entry. -/
def benchFieldRaw (bench : List (String × BenchVal)) (k : String)
    (f : Benchmark → Option ℚ) : Except String (Option ℚ) :=
  match bench.lookup k with
  | some (BenchVal.obj b) => Except.ok (f b)
  | _ => Except.error "TypeError"

/-- The percentile computation of the pass over raw entries: without
estimates it reads the percentile property (and can throw); with
estimates it is the relative-label mapping, which reads no benchmark. -/
def percentileForRaw (useEstimates : Bool) (bench : List (String × BenchVal))
    (relative : List (String × String)) (k : String) : Except String ℤ :=
  if !useEstimates then
    match benchFieldRaw bench k Benchmark.percentile with
    | Except.error e => Except.error e
    | Except.ok p => Except.ok (jsRound ((p.getD 0) * 100))
  else
    Except.ok (percentileFor true [] relative k)

/-- The company-value computation of the pass over raw entries. -/
def companyValForRaw (useEstimates : Bool) (bench : List (String × BenchVal))
    (em : Option (List (String × ExtVal))) (estimates : List (String × Estimate))
    (k : String) : Except String (Option ℚ) :=
  if !useEstimates then benchFieldRaw bench k Benchmark.companyValue
  else Except.ok (getCompanyMetricValue em k
    (((estimates.lookup k).bind Estimate.unit).getD ""))

/-- The median computation of the pass over raw entries. -/
def medianForRaw (useEstimates : Bool) (bench : List (String × BenchVal))
    (estimates : List (String × Estimate)) (k : String) : Except String ℚ :=
  if useEstimates then Except.ok (((estimates.lookup k).bind Estimate.median).getD 0)
  else
    match benchFieldRaw bench k Benchmark.median with
    | Except.error e => Except.error e
    | Except.ok m => Except.ok (m.getD 0)

/-- Key-set selection over raw entries (Object.keys reads no entry
values, so it never throws). -/
def rawChartKeys (bench : List (String × BenchVal))
    (estimates : List (String × Estimate)) : List String × Bool :=
  let keys := bench.map Prod.fst
  if keys.isEmpty && !((estimates.map Prod.fst).isEmpty) then
    (estimates.map Prod.fst, true)
  else (keys, false)

/-- Per-key evaluation in key order, aborting at the first thrown
error, the way a JavaScript map callback propagates a throw. -/
def mapExcept {β : Type} (f : String → Except String β) :
    List String → Except String (List β)
  | [] => Except.ok []
  | k :: rest =>
    match f k with
    | Except.error e => Except.error e
    | Except.ok v =>
      match mapExcept f rest with
      | Except.error e => Except.error e
      | Except.ok vs => Except.ok (v :: vs)

/-- The series computation of the render pass over raw entries, in
source order: percentiles, then company values, then medians; the
first thrown TypeError aborts it. -/
def metricSeriesRaw (bench : List (String × BenchVal))
    (estimates : List (String × Estimate)) (relative : List (String × String))
    (em : Option (List (String × ExtVal))) : Except String MetricSeries :=
  let ku := rawChartKeys bench estimates
  match mapExcept (percentileForRaw ku.2 bench relative) ku.1 with
  | Except.error e => Except.error e
  | Except.ok ps =>
    match mapExcept (companyValForRaw ku.2 bench em estimates) ku.1 with
    | Except.error e => Except.error e
    | Except.ok cs =>
      match mapExcept (medianForRaw ku.2 bench estimates) ku.1 with
      | Except.error e => Except.error e
      | Except.ok ms => Except.ok { percentiles := ps, companyVals := cs, medians := ms }

/-- Embed a well-shaped benchmarks record into the raw entry space. -/
def asObjBench (bench : List (String × Benchmark)) : List (String × BenchVal) :=
  bench.map (fun p => (p.1, BenchVal.obj p.2))

/-! ## RenderScheduler and ChartRenderer state machine

The component state: the in-flight and pending flags, the single
setTimeout slot, the attempt counter, the tracked chart array, and an
explicit model of the world the component mutates — the set of live
(undestroyed) Chart.js instances, the Chart.js canvas registry (one
binding per canvas slot) and a fresh-id counter.  createdLog is an
event log instrumenting chart construction, appended exactly where the
source constructs a new Chart. -/

/-- The kind of chart bound to each slot. -/
inductive ChartKind where
  | radar
  | bar
  | dough
deriving DecidableEq

/-- The DOM environment of one render pass: which canvases exist in the
document and whether the size probe (ensureCanvasSize) succeeds for
each.  The probe fails only when measurement throws, since the last
fallback forces a positive width and height. -/
structure Dom where
  radarPresent : Bool
  radarSized : Bool
  barPresent : Bool
  barSized : Bool
  doughPresent : Bool
  doughSized : Bool
deriving DecidableEq

/-- Component plus world state. -/
structure DashState where
  analysis : Option AnalysisResult
  isRendering : Bool
  pendingRender : Bool
  renderTimer : Option ℕ
  renderAttempts : ℕ
  charts : List (ℕ × ChartKind)
  live : List ℕ
  radarSlot : Option ℕ
  barSlot : Option ℕ
  doughSlot : Option ℕ
  nextId : ℕ
  createdLog : List ChartKind
deriving DecidableEq

/-- scheduleRender: while a pass is in flight only the pending flag is
set; otherwise the existing timer is cleared and a new one armed. -/
def scheduleRender (delay : ℕ) (s : DashState) : DashState :=
  if s.isRendering then { s with pendingRender := true }
  else { s with renderTimer := some delay }

/-- Destroy one chart instance: it stops being live and is removed from
the canvas registry of whichever slot it occupies. -/
def destroyChart (cid : ℕ) (s : DashState) : DashState :=
  { s with
    live := s.live.erase cid
    radarSlot := if s.radarSlot = some cid then none else s.radarSlot
    barSlot := if s.barSlot = some cid then none else s.barSlot
    doughSlot := if s.doughSlot = some cid then none else s.doughSlot }

/-- The destroy loop at the start of a pass (and in ngOnDestroy):
destroy every tracked chart, then clear the tracking array. -/
def destroyAllTracked (s : DashState) : DashState :=
  let s1 := s.charts.foldl (fun acc c => destroyChart c.1 acc) s
  { s1 with charts := [] }

/-- The defensive getChart-then-destroy before binding a new chart to a
slot. -/
def destroySlot (kind : ChartKind) (s : DashState) : DashState :=
  match kind with
  | ChartKind.radar => match s.radarSlot with
    | some cid => destroyChart cid s
    | none => s
  | ChartKind.bar => match s.barSlot with
    | some cid => destroyChart cid s
    | none => s
  | ChartKind.dough => match s.doughSlot with
    | some cid => destroyChart cid s
    | none => s

/-- new Chart bound to a slot: a fresh live instance, registered on its
canvas, pushed onto the tracking array, logged. -/
def createChart (kind : ChartKind) (s : DashState) : DashState :=
  { s with
    live := s.nextId :: s.live
    charts := s.charts ++ [(s.nextId, kind)]
    createdLog := s.createdLog ++ [kind]
    nextId := s.nextId + 1
    radarSlot := if kind = ChartKind.radar then some s.nextId else s.radarSlot
    barSlot := if kind = ChartKind.bar then some s.nextId else s.barSlot
    doughSlot := if kind = ChartKind.dough then some s.nextId else s.doughSlot }

/-- The radar block of the pass.  Sum.inl is the early return of the
pass after the reschedule request on a failed size probe. -/
def radarStep (dom : Dom) (s : DashState) : DashState ⊕ DashState :=
  if dom.radarPresent then
    if dom.radarSized then
      Sum.inr (createChart ChartKind.radar (destroySlot ChartKind.radar s))
    else Sum.inl (scheduleRender 200 s)
  else Sum.inr s

/-- The bar block of the pass. -/
def barStep (dom : Dom) (s : DashState) : DashState ⊕ DashState :=
  if dom.barPresent then
    if dom.barSized then
      Sum.inr (createChart ChartKind.bar (destroySlot ChartKind.bar s))
    else Sum.inl (scheduleRender 200 s)
  else Sum.inr s

/-- The doughnut block of the pass: built only when a composite score is
present. -/
def doughStep (dom : Dom) (a : AnalysisResult) (s : DashState) : DashState ⊕ DashState :=
  if (composite a).isSome then
    if dom.doughPresent then
      if dom.doughSized then
        Sum.inr (createChart ChartKind.dough (destroySlot ChartKind.dough s))
      else Sum.inl (scheduleRender 200 s)
    else Sum.inr s
  else Sum.inr s

/-- The epilogue of the pass: the no-canvases-at-all retry request,
bounded by the attempt cap, then the in-flight flag reset and the
pending-rerender handoff. -/
def finishPass (dom : Dom) (hasData : Bool) (s : DashState) : DashState :=
  let s1 :=
    if !dom.radarPresent && !dom.barPresent && !dom.doughPresent then
      if hasData && decide (s.renderAttempts ≤ 5) then scheduleRender 250 s
      else s
    else s
  let s2 := { s1 with isRendering := false }
  if s2.pendingRender then scheduleRender 0 { s2 with pendingRender := false }
  else s2

/-- One invocation of renderCharts. -/
def renderCharts (dom : Dom) (s : DashState) : DashState :=
  match s.analysis with
  | none => s
  | some a =>
    if s.isRendering then { s with pendingRender := true }
    else
      let s1 := { s with renderAttempts := s.renderAttempts + 1 }
      if 5 < s1.renderAttempts then s1
      else
        let s2 := destroyAllTracked { s1 with isRendering := true }
        let keys := (chartKeys a).1
        let hasData := !keys.isEmpty || (composite a).isSome
        if keys.isEmpty then
          match doughStep dom a s2 with
          | Sum.inl aborted => aborted
          | Sum.inr s4 => finishPass dom hasData s4
        else
          match radarStep dom s2 with
          | Sum.inl aborted => aborted
          | Sum.inr s3 =>
            match barStep dom s3 with
            | Sum.inl aborted => aborted
            | Sum.inr s3b =>
              match doughStep dom a s3b with
              | Sum.inl aborted => aborted
              | Sum.inr s4 => finishPass dom hasData s4

/-- The armed setTimeout fires: the timer slot empties and renderCharts
runs.  With no armed timer nothing happens. -/
def fireTimer (dom : Dom) (s : DashState) : DashState :=
  match s.renderTimer with
  | some _ => renderCharts dom { s with renderTimer := none }
  | none => s

/-- Component state at view mount, right after ngAfterViewInit armed the
zero-delay initial render. -/
def initState (a : AnalysisResult) : DashState :=
  { analysis := some a
    isRendering := false
    pendingRender := false
    renderTimer := some 0
    renderAttempts := 0
    charts := []
    live := []
    radarSlot := none
    barSlot := none
    doughSlot := none
    nextId := 0
    createdLog := [] }

/-! ## ReportTypesetter (downloadPdf layout engine)

Layout constants in millimetres of the A4 portrait page.  The cursor
model: a single vertical offset, a page counter, and a log of the page
and offset of every body text line emitted.  Wrapping
(pdf.splitTextToSize) is an external text-measurement routine; block
commands therefore carry the wrapped line counts it produced, which is
all the layout reads from it. -/

/-- A4 page height in mm. -/
def pageHeight : ℚ := 297

/-- Outer margin in mm. -/
def pdfMargin : ℚ := 12

/-- Header band height in mm. -/
def headerHeight : ℚ := 18

/-- Footer band height in mm. -/
def footerHeight : ℚ := 10

/-- Line height in mm. -/
def lineHeight : ℚ := 6

/-- The printable bound: pageHeight - margin - footerHeight. -/
def printableBound : ℚ := pageHeight - pdfMargin - footerHeight

/-- Typesetting state: cursor offset, page number, and the (page,
offset) of every emitted body line. -/
structure PdfState where
  y : ℚ
  page : ℕ
  emitted : List (ℕ × ℚ)
deriving DecidableEq

/-- A page break: addPage plus addHeader plus the cursor reset to just
below the header. -/
def pageBreak (s : PdfState) : PdfState :=
  { s with page := s.page + 1, y := pdfMargin + headerHeight }

/-- ensureSpace: if the needed lines do not fit above the footer band,
break the page. -/
def ensureSpace (neededLines : ℕ) (s : PdfState) : PdfState :=
  if printableBound < s.y + neededLines * lineHeight then pageBreak s else s

/-- Record one emitted text line at the current cursor. -/
def emitLine (s : PdfState) : PdfState :=
  { s with emitted := (s.page, s.y) :: s.emitted }

/-- Advance the cursor. -/
def advance (d : ℚ) (s : PdfState) : PdfState := { s with y := s.y + d }

/-- Emit n lines, each guarded by ensureSpace of one line and followed
by one line-height advance (the per-line loop of addParagraph and the
continuation loop of addBullets). -/
def emitNLines : ℕ → PdfState → PdfState
  | 0, s => s
  | n + 1, s => emitNLines n (advance lineHeight (emitLine (ensureSpace 1 s)))

/-- addTitle: ensureSpace 2, one emitted line, advance lineHeight + 2. -/
def addTitle (s : PdfState) : PdfState :=
  advance (lineHeight + 2) (emitLine (ensureSpace 2 s))

/-- addSection: ensureSpace 2, one emitted line, advance lineHeight. -/
def addSection (s : PdfState) : PdfState :=
  advance lineHeight (emitLine (ensureSpace 2 s))

/-- addLabel: ensureSpace 1, one emitted line, advance lineHeight - 1. -/
def addLabel (s : PdfState) : PdfState :=
  advance (lineHeight - 1) (emitLine (ensureSpace 1 s))

/-- The bold risk header line inside the risks loop: ensureSpace 1, one
emitted line, advance lineHeight - 2. -/
def addRiskHeader (s : PdfState) : PdfState :=
  advance (lineHeight - 2) (emitLine (ensureSpace 1 s))

/-- One sub-paragraph of addParagraph: its wrapped lines one by one,
then the 2 mm gap. -/
def addParaPart (n : ℕ) (s : PdfState) : PdfState :=
  advance 2 (emitNLines n s)

/-- addParagraph over the newline-separated sub-paragraphs, given the
wrapped line count of each (an absent text is the empty part list). -/
def addParagraph (parts : List ℕ) (s : PdfState) : PdfState :=
  parts.foldl (fun acc n => addParaPart n acc) s

/-- One bullet item of n wrapped lines: ensureSpace n, the bulleted
first line, then the continuation lines each guarded individually. -/
def addBulletItem (n : ℕ) (s : PdfState) : PdfState :=
  let s1 := ensureSpace n s
  let s2 := advance lineHeight (emitLine s1)
  emitNLines (n - 1) s2

/-- addBullets over the items, given the wrapped line count of each,
with the trailing 2 mm gap; an empty item list returns unchanged. -/
def addBullets (items : List ℕ) (s : PdfState) : PdfState :=
  if items.isEmpty then s
  else advance 2 (items.foldl (fun acc n => addBulletItem n acc) s)

/-- The block commands the downloadPdf body issues against the cursor. -/
inductive PdfCmd where
  | title
  | sectionHeader
  | label
  | riskHeader
  | paragraph (parts : List ℕ)
  | bullets (items : List ℕ)
deriving DecidableEq

/-- Run one block command. -/
def runCmd (s : PdfState) : PdfCmd → PdfState
  | PdfCmd.title => addTitle s
  | PdfCmd.sectionHeader => addSection s
  | PdfCmd.label => addLabel s
  | PdfCmd.riskHeader => addRiskHeader s
  | PdfCmd.paragraph parts => addParagraph parts s
  | PdfCmd.bullets items => addBullets items s

/-- Run a block command sequence. -/
def runCmds (cmds : List PdfCmd) (s : PdfState) : PdfState :=
  cmds.foldl runCmd s

/-- State after the first-page header: cursor just below the header
band on page one. -/
def initPdf : PdfState := { y := pdfMargin + headerHeight, page := 1, emitted := [] }

/-- Every bullet item wraps to at least one line (pdf.splitTextToSize
returns at least one line for any input string). -/
def bulletsOk (cmds : List PdfCmd) : Bool :=
  cmds.all fun c =>
    match c with
    | PdfCmd.bullets items => items.all (fun n => decide (1 ≤ n))
    | _ => true

/-- Every emitted body line sits a full line height above the footer
band. -/
def emittedGood (s : PdfState) : Bool :=
  s.emitted.all fun e => decide (e.2 + lineHeight ≤ printableBound)

/-! ## sanitizeText -/

/-- The zero-width and byte-order-mark class removed by sanitizeText. -/
def isZeroWidth (c : Char) : Bool :=
  (0x200B ≤ c.toNat && c.toNat ≤ 0x200D) || c.toNat = 0xFEFF

/-- The superscript-one and rupee-sign class rewritten to an INR token. -/
def isRupeeOrSup (c : Char) : Bool :=
  c.toNat = 0xB9 || c.toNat = 0x20B9

/-- Strip zero-width characters and the byte-order mark. -/
def stripZeroWidth (l : List Char) : List Char :=
  l.filter (fun c => !isZeroWidth c)

/-- Rewrite the rupee sign and superscript one to the INR token. -/
def replaceINR (l : List Char) : List Char :=
  l.flatMap (fun c => if isRupeeOrSup c then "INR ".data else [c])

/-- Rewrite the no-break space to a plain space. -/
def replaceNbsp (l : List Char) : List Char :=
  l.map (fun c => if c.toNat = 0xA0 then ' ' else c)

/-- Rewrite curly single quotes to the apostrophe. -/
def replaceSingleQuotes (l : List Char) : List Char :=
  l.map (fun c => if c.toNat = 0x2018 || c.toNat = 0x2019 then '\x27' else c)

/-- Rewrite curly double quotes to the straight double quote. -/
def replaceDoubleQuotes (l : List Char) : List Char :=
  l.map (fun c => if c.toNat = 0x201C || c.toNat = 0x201D then '"' else c)

/-- Rewrite en and em dashes to the hyphen-minus. -/
def replaceDashes (l : List Char) : List Char :=
  l.map (fun c => if c.toNat = 0x2013 || c.toNat = 0x2014 then '-' else c)

/-- The replacement passes of sanitizeText in source order (everything
after the normalize call). -/
def sanitizePasses (l : List Char) : List Char :=
  replaceDashes (replaceDoubleQuotes (replaceSingleQuotes
    (replaceNbsp (replaceINR (stripZeroWidth l)))))

/-- sanitizeText: empty in, empty out; otherwise the normalize call
with the NFKC form — an external Unicode routine taken here as a
parameter — followed by the replacement passes in source order. -/
def sanitizeTextWith (nfkc : List Char → List Char) (text : String) : String :=
  if text = "" then ""
  else String.mk (sanitizePasses (nfkc text.data))

/-- A fragment of Unicode NFKC normalization, faithful on the inputs it
is applied to below: the compatibility mapping of superscript one to
the digit one, and canonical composition of the letter a followed
immediately by the combining acute accent into the precomposed letter;
any other character — in particular a zero-width space, whose combining
class is zero and which therefore blocks composition — passes through
unchanged. -/
def nfkcFrag : List Char → List Char
  | [] => []
  | [c] => if c.toNat = 0xB9 then ['1'] else [c]
  | c :: c2 :: rest =>
    if c.toNat = 0xB9 then '1' :: nfkcFrag (c2 :: rest)
    else if c.toNat = 0x61 ∧ c2.toNat = 0x301 then
      Char.ofNat 0xE1 :: nfkcFrag rest
    else c :: nfkcFrag (c2 :: rest)

/-- A character no sanitizeText pass rewrites or removes. -/
def sanitizedChar (c : Char) : Bool :=
  !isZeroWidth c && !isRupeeOrSup c && !(c.toNat = 0xA0) &&
  !(c.toNat = 0x2018 || c.toNat = 0x2019) &&
  !(c.toNat = 0x201C || c.toNat = 0x201D) &&
  !(c.toNat = 0x2013 || c.toNat = 0x2014)

/-! ## Stage canonicalization (getStageLabel) -/

/-- Match of the pre-seed regex at the head of the list: the literal
pre, optional whitespace, an optional hyphen, optional whitespace, the
literal seed. -/
def preSeedAt (l : List Char) : Bool :=
  if "pre".data.isPrefixOf l then
    let l1 := skipWs (l.drop 3)
    let l2 := match l1 with
      | '-' :: r => r
      | _ => l1
    "seed".data.isPrefixOf (skipWs l2)
  else false

/-- Match of the series regex at the head of the list, returning the
captured letter: the literal series, optional whitespace, an optional
hyphen, optional whitespace, one letter. -/
def seriesLetterAt (l : List Char) : Option Char :=
  if "series".data.isPrefixOf l then
    let l1 := skipWs (l.drop 6)
    let l2 := match l1 with
      | '-' :: r => r
      | _ => l1
    match skipWs l2 with
    | c :: _ => if 'a' ≤ c ∧ c ≤ 'z' then some c else none
    | [] => none
  else none

/-- Leftmost match of the series regex anywhere in the list. -/
def scanSeries : List Char → Option Char
  | [] => none
  | c :: rest =>
    match seriesLetterAt (c :: rest) with
    | some x => some x
    | none => scanSeries rest

/-- Collapse every whitespace run to a single space (the replace of a
one-or-more whitespace regex with one space).  The flag records whether
a run is already open. -/
def collapseWsAux : Bool → List Char → List Char
  | _, [] => []
  | prevWs, c :: rest =>
    if isJsWs c then
      if prevWs then collapseWsAux true rest
      else ' ' :: collapseWsAux true rest
    else c :: collapseWsAux false rest

/-- Collapse whitespace runs in a list. -/
def collapseWs (l : List Char) : List Char := collapseWsAux false l

/-- JavaScript split on a one-or-more whitespace regex.  The flag is
true while inside a separator run whose boundary token was already
emitted. -/
def splitWsRun : Bool → List Char → List Char → List (List Char)
  | false, cur, [] => [cur.reverse]
  | false, cur, c :: rest =>
    if isJsWs c then cur.reverse :: splitWsRun true [] rest
    else splitWsRun false (c :: cur) rest
  | true, _, [] => [[]]
  | true, _, c :: rest =>
    if isJsWs c then splitWsRun true [] rest
    else splitWsRun false [c] rest

/-- Capitalize the first character of a word. -/
def capWord : List Char → List Char
  | [] => []
  | c :: rest => asciiUpper c :: rest

/-- titleCase: lower-case, split on whitespace runs, capitalize each
word, join with single spaces. -/
def titleCase (s : String) : String :=
  String.mk (List.intercalate [' ']
    ((splitWsRun false [] (asciiLowerStr s).data).map capWord))

/-- A character the stage fallback keeps: a lower-case letter,
whitespace or a hyphen; everything else becomes a space. -/
def isStageChar (c : Char) : Bool :=
  ('a' ≤ c && c ≤ 'z') || isJsWs c || c = '-'

/-- The fallback branch of getStageLabel: clean to letters, spaces and
hyphens, collapse whitespace, trim, title-case, truncate to 20
characters with an ellipsis on overflow. -/
def stageFallback (raw : String) : String :=
  let cleaned := String.mk (trimWs (collapseWs
    (raw.data.map (fun c => if isStageChar c then c else ' '))))
  let titled := titleCase cleaned
  if 20 < titled.length then String.mk (titled.data.take 20) ++ "…" else titled

/-- getStageLabel on the raw stage string: trim, lower-case, then the
ordered pattern match with the cleaned title-cased truncation as the
fallback. -/
def getStageLabel (rawIn : String) : String :=
  let raw := asciiLowerStr (String.mk (trimWs rawIn.data))
  if raw = "" then ""
  else if scanContains preSeedAt raw.data then "Pre-Seed"
  else if containsSub "seed".data raw.data then "Seed"
  else if containsSub "angel".data raw.data then "Angel"
  else
    match scanSeries raw.data with
    | some c => "Series " ++ String.mk [asciiUpper c]
    | none =>
      if containsSub "growth".data raw.data || containsSub "late".data raw.data
      then "Growth"
      else stageFallback raw

/-! ## downloadPdf entry guard -/

/-- Whether the guarded PDF generation body runs to completion or
raises internally (a failed dynamic import or a jsPDF failure). -/
inductive GenOutcome where
  | ok
  | fail
deriving DecidableEq

/-- The state downloadPdf reads and writes: the loaded analysis, the
in-progress flag, and whether a document was saved. -/
structure PdfGenState where
  analysis : Option AnalysisResult
  isGeneratingPdf : Bool
  saved : Bool
deriving DecidableEq

/-- downloadPdf: return immediately with no state change when no
analysis is loaded or a generation is in progress; otherwise set the
flag, run the body (able to raise, in which case the catch only logs),
and reset the flag in the finally clause on both outcomes. -/
def downloadPdf (outcome : GenOutcome) (s : PdfGenState) : PdfGenState :=
  if s.analysis.isNone || s.isGeneratingPdf then s
  else
    let s1 := { s with isGeneratingPdf := true }
    let s2 := match outcome with
      | GenOutcome.ok => { s1 with saved := true }
      | GenOutcome.fail => s1
    { s2 with isGeneratingPdf := false }

/-! ## Concrete fixtures used by witnesses and counterexamples -/

/-- A benchmark entry at the 70th percentile. -/
def bmFix : Benchmark :=
  { companyValue := some 10, median := some 8, percentile := some (7/10),
    status := some "above" }

/-- A benchmark entry with integer-valued fields, used in the scheduler
traces. -/
def bmInt : Benchmark :=
  { companyValue := some 10, median := some 8, percentile := some 1,
    status := some "above" }

/-- A result with one benchmark key and a composite score. -/
def resultWithBenchAndScore : AnalysisResult :=
  { benchmarks := [("arr", bmInt)]
    llmBenchmark := none
    score := some { composite := some 1, verdict := some "ok" }
    extractedMetrics := none }

/-- A result with one benchmark key and no composite score. -/
def resultWithBenchOnly : AnalysisResult :=
  { benchmarks := [("arr", bmInt)]
    llmBenchmark := none
    score := none
    extractedMetrics := none }

/-- A result with neither benchmarks nor estimates. -/
def resultEmpty : AnalysisResult :=
  { benchmarks := [], llmBenchmark := none, score := none, extractedMetrics := none }

/-- All three canvases mounted and sized. -/
def domAll : Dom :=
  { radarPresent := true, radarSized := true, barPresent := true,
    barSized := true, doughPresent := true, doughSized := true }

/-- No canvas exists in the document. -/
def domNone : Dom :=
  { radarPresent := false, radarSized := false, barPresent := false,
    barSized := false, doughPresent := false, doughSized := false }

/-- The radar canvas is mounted but its size probe fails; the other
canvases are fine. -/
def domRadarUnsized : Dom :=
  { radarPresent := true, radarSized := false, barPresent := true,
    barSized := true, doughPresent := true, doughSized := true }

/-- The state after the first render pass runs against the unsized
radar canvas: the initial zero-delay timer fires and the pass aborts. -/
def wedgedState : DashState :=
  fireTimer domRadarUnsized (initState resultWithBenchAndScore)

/-- The state after five render passes fired with no canvas ever in the
document. -/
def fiveFired : DashState :=
  (fireTimer domNone)^[5] (initState resultWithBenchOnly)

/-- A demo export document: sections, a long paragraph spilling over a
page, bullets, labels and a risk header. -/
def demoCmds : List PdfCmd :=
  [PdfCmd.title, PdfCmd.sectionHeader, PdfCmd.paragraph [50, 2],
    PdfCmd.label, PdfCmd.bullets [3, 2], PdfCmd.riskHeader,
    PdfCmd.paragraph [80]]

/-- The component state after one full successful render pass over a
result a (non-empty key set, composite present) in the fully mounted
DOM. -/
def passOneState (a : AnalysisResult) : DashState :=
  { analysis := some a
    isRendering := false
    pendingRender := false
    renderTimer := none
    renderAttempts := 1
    charts := [(0, ChartKind.radar), (1, ChartKind.bar), (2, ChartKind.dough)]
    live := [2, 1, 0]
    radarSlot := some 0
    barSlot := some 1
    doughSlot := some 2
    nextId := 3
    createdLog := [ChartKind.radar, ChartKind.bar, ChartKind.dough] }

/-- The component state after a second full render pass over the same
result and DOM. -/
def passTwoState (a : AnalysisResult) : DashState :=
  { analysis := some a
    isRendering := false
    pendingRender := false
    renderTimer := none
    renderAttempts := 2
    charts := [(3, ChartKind.radar), (4, ChartKind.bar), (5, ChartKind.dough)]
    live := [5, 4, 3]
    radarSlot := some 3
    barSlot := some 4
    doughSlot := some 5
    nextId := 6
    createdLog := [ChartKind.radar, ChartKind.bar, ChartKind.dough,
      ChartKind.radar, ChartKind.bar, ChartKind.dough] }

/-! ## Helper lemmas -/

theorem attempts_scheduleRender (d : ℕ) (s : DashState) :
    (scheduleRender d s).renderAttempts = s.renderAttempts := by
  unfold scheduleRender
  split <;> rfl

theorem attempts_destroyChart (cid : ℕ) (s : DashState) :
    (destroyChart cid s).renderAttempts = s.renderAttempts := rfl

theorem attempts_foldlDestroy (l : List (ℕ × ChartKind)) (s : DashState) :
    (l.foldl (fun acc c => destroyChart c.1 acc) s).renderAttempts = s.renderAttempts := by
  induction l generalizing s with
  | nil => rfl
  | cons c rest ih => simpa [List.foldl] using ih (destroyChart c.1 s)

theorem attempts_destroyAllTracked (s : DashState) :
    (destroyAllTracked s).renderAttempts = s.renderAttempts := by
  unfold destroyAllTracked
  simpa using attempts_foldlDestroy s.charts s

theorem attempts_destroySlot (k : ChartKind) (s : DashState) :
    (destroySlot k s).renderAttempts = s.renderAttempts := by
  unfold destroySlot
  cases k
  · cases s.radarSlot <;> rfl
  · cases s.barSlot <;> rfl
  · cases s.doughSlot <;> rfl

theorem attempts_createChart (k : ChartKind) (s : DashState) :
    (createChart k s).renderAttempts = s.renderAttempts := rfl

theorem attempts_radarStep (dom : Dom) (s t : DashState) :
    radarStep dom s = Sum.inl t ∨ radarStep dom s = Sum.inr t →
    t.renderAttempts = s.renderAttempts := by
  unfold radarStep
  split_ifs <;> rintro (h | h) <;> cases h <;>
    simp [attempts_scheduleRender, attempts_createChart, attempts_destroySlot]

theorem attempts_barStep (dom : Dom) (s t : DashState) :
    barStep dom s = Sum.inl t ∨ barStep dom s = Sum.inr t →
    t.renderAttempts = s.renderAttempts := by
  unfold barStep
  split_ifs <;> rintro (h | h) <;> cases h <;>
    simp [attempts_scheduleRender, attempts_createChart, attempts_destroySlot]

theorem attempts_doughStep (dom : Dom) (a : AnalysisResult) (s t : DashState) :
    doughStep dom a s = Sum.inl t ∨ doughStep dom a s = Sum.inr t →
    t.renderAttempts = s.renderAttempts := by
  unfold doughStep
  split_ifs <;> rintro (h | h) <;> cases h <;>
    simp [attempts_scheduleRender, attempts_createChart, attempts_destroySlot]

theorem attempts_finishPass (dom : Dom) (hasData : Bool) (s : DashState) :
    (finishPass dom hasData s).renderAttempts = s.renderAttempts := by
  simp only [finishPass, scheduleRender]
  split_ifs <;> simp

/-- The chart-building core of a pass (everything after the destroy
loop) never changes the attempt counter. -/
theorem attempts_passCore (dom : Dom) (a : AnalysisResult) (ke hd : Bool)
    (s2 : DashState) :
    (if ke then
        match doughStep dom a s2 with
        | Sum.inl aborted => aborted
        | Sum.inr s4 => finishPass dom hd s4
      else
        match radarStep dom s2 with
        | Sum.inl aborted => aborted
        | Sum.inr s3 =>
          match barStep dom s3 with
          | Sum.inl aborted => aborted
          | Sum.inr s3b =>
            match doughStep dom a s3b with
            | Sum.inl aborted => aborted
            | Sum.inr s4 => finishPass dom hd s4).renderAttempts
      = s2.renderAttempts := by
  split
  · rcases h : doughStep dom a s2 with t | t
    · exact attempts_doughStep dom a s2 t (Or.inl h)
    · dsimp only
      rw [attempts_finishPass]
      exact attempts_doughStep dom a s2 t (Or.inr h)
  · rcases h1 : radarStep dom s2 with t1 | t1
    · exact attempts_radarStep dom s2 t1 (Or.inl h1)
    · have e1 : t1.renderAttempts = s2.renderAttempts :=
        attempts_radarStep dom s2 t1 (Or.inr h1)
      dsimp only
      rcases h2 : barStep dom t1 with t2 | t2
      · dsimp only
        rw [attempts_barStep dom t1 t2 (Or.inl h2)]
        exact e1
      · have e2 : t2.renderAttempts = t1.renderAttempts :=
          attempts_barStep dom t1 t2 (Or.inr h2)
        dsimp only
        rcases h3 : doughStep dom a t2 with t3 | t3
        · dsimp only
          rw [attempts_doughStep dom a t2 t3 (Or.inl h3)]
          rw [e2]
          exact e1
        · dsimp only
          rw [attempts_finishPass]
          rw [attempts_doughStep dom a t2 t3 (Or.inr h3)]
          rw [e2]
          exact e1

/-- An executed render pass increments the attempt counter by exactly
one, whatever the DOM looks like and wherever the pass exits. -/
theorem attempts_renderCharts (dom : Dom) (s : DashState) (a : AnalysisResult)
    (hA : s.analysis = some a) (hR : s.isRendering = false) :
    (renderCharts dom s).renderAttempts = s.renderAttempts + 1 := by
  unfold renderCharts
  rw [hA]
  simp only [hR, Bool.false_eq_true, if_false]
  split
  · rfl
  · rw [attempts_passCore]
    rw [attempts_destroyAllTracked]

/-! ## Claim theorems -/

/-- C1: the claim states that aborting a pass on an unsized radar or bar
canvas requests a re-render after 200 ms, that a retry pass actually
executes afterwards, and that the in-flight flag is not left set.  The
code contradicts this: the abort path calls scheduleRender while the
in-flight flag is still set, which only raises the pending flag and
arms no timer, and then returns without clearing the flag.  The
resulting state is permanently wedged: the flag stays set, no timer is
armed, every later request only sets the pending flag again, and even a
directly invoked pass does nothing. -/
theorem c1_unsized_canvas_abort_wedges_scheduler :
    wedgedState.isRendering = true ∧
    wedgedState.renderTimer = none ∧
    wedgedState.pendingRender = true ∧
    scheduleRender 200 wedgedState = { wedgedState with pendingRender := true } ∧
    renderCharts domRadarUnsized wedgedState = { wedgedState with pendingRender := true } ∧
    fireTimer domRadarUnsized wedgedState = wedgedState := by
  refine ⟨by decide, by decide, by decide, by decide, by decide, by decide⟩

/-- C2 counterexample: after exactly 5 executed render passes during
which no target canvas ever existed in the document, the attempt
counter is 5 and a zero-delay timer is armed — a 6th pass IS scheduled,
and firing it changes the state, contradicting the claim that a 6th
pass is never scheduled. -/
theorem c2_sixth_pass_is_scheduled :
    fiveFired.renderAttempts = 5 ∧
    fiveFired.renderTimer = some 0 ∧
    (fireTimer domNone fiveFired).renderAttempts = 6 := by
  refine ⟨by decide, by decide, by decide⟩

/-- C2 (amended): the attempt counter increments exactly once per
executed render pass and never per request; a pass whose incremented
counter exceeds the cap of 5 aborts at the cap check, leaving the state
unchanged except for the counter, and schedules nothing.  After 5
executed passes with the canvases never in the document a 6th pass is
scheduled; it executes, raises the counter to 6, builds nothing and
arms no timer, so a 7th pass never fires. -/
theorem c2_attempt_cap_amended :
    (∀ (d : ℕ) (s : DashState), (scheduleRender d s).renderAttempts = s.renderAttempts) ∧
    (∀ (dom : Dom) (s : DashState) (a : AnalysisResult),
        s.analysis = some a → s.isRendering = false →
        (renderCharts dom s).renderAttempts = s.renderAttempts + 1) ∧
    (∀ (dom : Dom) (s : DashState) (a : AnalysisResult),
        s.analysis = some a → s.isRendering = false → 5 < s.renderAttempts + 1 →
        renderCharts dom s = { s with renderAttempts := s.renderAttempts + 1 }) ∧
    ((fireTimer domNone fiveFired).renderAttempts = 6 ∧
      (fireTimer domNone fiveFired).renderTimer = none ∧
      (fireTimer domNone fiveFired).charts = [] ∧
      fireTimer domNone (fireTimer domNone fiveFired) = fireTimer domNone fiveFired) := by
  refine ⟨attempts_scheduleRender, ?_, ?_, by decide, by decide, by decide, by decide⟩
  · intro dom s a hA hR
    exact attempts_renderCharts dom s a hA hR
  · intro dom s a hA hR hCap
    unfold renderCharts
    rw [hA]
    simp only [hR, Bool.false_eq_true, if_false]
    have hc : (5 : ℕ) <
        ({ s with renderAttempts := s.renderAttempts + 1 } : DashState).renderAttempts :=
      hCap
    rw [if_pos hc]

/-- C2 witness: the amended per-pass increment and cap-abort clauses at
concrete inputs — the first executed pass on a fresh state takes the
counter from 0 to 1, and a pass entered with the counter at 7 returns
immediately having only bumped it to 8. -/
theorem c2_attempt_cap_amended_witness :
    (renderCharts domNone { initState resultWithBenchOnly with renderTimer := none }).renderAttempts = 1 ∧
    renderCharts domNone { initState resultWithBenchOnly with renderTimer := none, renderAttempts := 7 } =
      { initState resultWithBenchOnly with renderTimer := none, renderAttempts := 8 } := by
  constructor
  · exact c2_attempt_cap_amended.2.1 domNone
      { initState resultWithBenchOnly with renderTimer := none } resultWithBenchOnly rfl rfl
  · have h := c2_attempt_cap_amended.2.2.1 domNone
      { initState resultWithBenchOnly with renderTimer := none, renderAttempts := 7 }
      resultWithBenchOnly rfl rfl (by norm_num)
    exact h

/-- C4: for every metric key, without estimates the percentile is the
round of the benchmark percentile times 100; with estimates the
lower-cased relative label maps above to 75, near to 50, below to 25,
and a missing or unknown label to 50. -/
theorem c4_percentile_mapping :
    (∀ (bench : List (String × Benchmark)) (rel : List (String × String))
        (k : String) (b : Benchmark) (p : ℚ),
        bench.lookup k = some b → b.percentile = some p →
        percentileFor false bench rel k = jsRound (p * 100)) ∧
    (∀ (bench : List (String × Benchmark)) (rel : List (String × String)) (k : String),
        asciiLowerStr ((rel.lookup k).getD "") = "above" →
        percentileFor true bench rel k = 75) ∧
    (∀ (bench : List (String × Benchmark)) (rel : List (String × String)) (k : String),
        asciiLowerStr ((rel.lookup k).getD "") = "near" →
        percentileFor true bench rel k = 50) ∧
    (∀ (bench : List (String × Benchmark)) (rel : List (String × String)) (k : String),
        asciiLowerStr ((rel.lookup k).getD "") = "below" →
        percentileFor true bench rel k = 25) ∧
    (∀ (bench : List (String × Benchmark)) (rel : List (String × String)) (k : String),
        rel.lookup k = none → percentileFor true bench rel k = 50) ∧
    (∀ (bench : List (String × Benchmark)) (rel : List (String × String)) (k : String),
        asciiLowerStr ((rel.lookup k).getD "") ≠ "above" →
        asciiLowerStr ((rel.lookup k).getD "") ≠ "near" →
        asciiLowerStr ((rel.lookup k).getD "") ≠ "below" →
        percentileFor true bench rel k = 50) := by
  refine ⟨?_, ?_, ?_, ?_, ?_, ?_⟩
  · intro bench rel k b p hB hP
    simp [percentileFor, hB, hP]
  · intro bench rel k h
    simp [percentileFor, h]
  · intro bench rel k h
    simp [percentileFor, h]
  · intro bench rel k h
    simp [percentileFor, h]
  · intro bench rel k h
    simp [percentileFor, h, asciiLowerStr]
  · intro bench rel k h1 h2 h3
    simp [percentileFor, h1, h2, h3]

/-- C4 witness: the percentile mapping at concrete inputs — a stored
percentile of 7/10 yields 70; relative labels above, near (in mixed
case), below and an unknown label yield 75, 50, 25 and 50. -/
theorem c4_percentile_mapping_witness :
    percentileFor false [("arr", bmFix)] [] "arr" = 70 ∧
    percentileFor true [] [("arr", "above")] "arr" = 75 ∧
    percentileFor true [] [("arr", "Near")] "arr" = 50 ∧
    percentileFor true [] [("arr", "below")] "arr" = 25 ∧
    percentileFor true [] [] "arr" = 50 ∧
    percentileFor true [] [("arr", "whatever")] "arr" = 50 := by
  refine ⟨?_, ?_, ?_, ?_, ?_, ?_⟩
  · have h := c4_percentile_mapping.1 [("arr", bmFix)] [] "arr" bmFix (7/10) rfl rfl
    rw [h]
    unfold jsRound
    norm_num
  · exact c4_percentile_mapping.2.1 [] [("arr", "above")] "arr" (by decide)
  · exact c4_percentile_mapping.2.2.1 [] [("arr", "Near")] "arr" (by decide)
  · exact c4_percentile_mapping.2.2.2.1 [] [("arr", "below")] "arr" (by decide)
  · exact c4_percentile_mapping.2.2.2.2.1 [] [] "arr" rfl
  · exact c4_percentile_mapping.2.2.2.2.2 [] [("arr", "whatever")] "arr"
      (by decide) (by decide) (by decide)

/-- C5: for the four percent-like keys, a finite resolved company value
v maps to v times 100 when v is at most 1 and stays unchanged when v
exceeds 1, and the outcome does not depend on the declared unit — in
particular a unit containing a percent sign and an absent unit give the
same value. -/
theorem c5_percent_normalization :
    ∀ (em : List (String × ExtVal)) (key : String) (v : ℚ),
      key ∈ percentKeys → resolveExtracted em key = some (ExtVal.fin v) →
      (∀ unit : String,
        getCompanyMetricValue (some em) key unit
          = some (if v ≤ 1 then v * 100 else v)) ∧
      (∀ unit : String, strContains (asciiLowerStr unit) '%' = true →
        getCompanyMetricValue (some em) key unit
          = getCompanyMetricValue (some em) key "") := by
  intro em key v hk hres
  have hmain : ∀ unit : String,
      getCompanyMetricValue (some em) key unit
        = some (if v ≤ 1 then v * 100 else v) := by
    intro unit
    unfold getCompanyMetricValue
    dsimp only
    rw [hres]
    dsimp only [toFiniteNumber]
    rw [if_pos hk]
    split <;> rfl
  exact ⟨hmain, fun unit _ => by rw [hmain unit, hmain ""]⟩

/-- C5 witness: an extracted churn rate of 21/50 (0.42) maps to 42 with
no unit and with a percent unit alike, and a value above 1 is left
unscaled. -/
theorem c5_percent_normalization_witness :
    getCompanyMetricValue (some [("churnRate", ExtVal.fin (21/50))]) "churnRate" "" = some 42 ∧
    getCompanyMetricValue (some [("churnRate", ExtVal.fin (21/50))]) "churnRate" "%" = some 42 ∧
    getCompanyMetricValue (some [("grossMargin", ExtVal.fin 55)]) "grossMargin" "%" = some 55 := by
  have h1 := c5_percent_normalization [("churnRate", ExtVal.fin (21/50))] "churnRate" (21/50)
    (by decide) rfl
  have h2 := c5_percent_normalization [("grossMargin", ExtVal.fin 55)] "grossMargin" 55
    (by decide) rfl
  refine ⟨?_, ?_, ?_⟩
  · rw [h1.1 "", if_pos (by norm_num)]
    norm_num
  · rw [h1.1 "%", if_pos (by norm_num)]
    norm_num
  · rw [h2.1 "%", if_neg (by norm_num)]

/-- C10: downloadPdf returns immediately with no state change when no
analysis is loaded or an export is already in progress; when it does
run, the in-progress flag is false again on every exit path, including
an internal generation failure, and a failed generation saves nothing. -/
theorem c10_download_pdf_guard :
    (∀ (o : GenOutcome) (s : PdfGenState), s.analysis = none → downloadPdf o s = s) ∧
    (∀ (o : GenOutcome) (s : PdfGenState), s.isGeneratingPdf = true → downloadPdf o s = s) ∧
    (∀ (o : GenOutcome) (s : PdfGenState), s.isGeneratingPdf = false →
        (downloadPdf o s).isGeneratingPdf = false) ∧
    (∀ s : PdfGenState, (downloadPdf GenOutcome.fail s).saved = s.saved) := by
  refine ⟨?_, ?_, ?_, ?_⟩
  · intro o s h
    simp [downloadPdf, h]
  · intro o s h
    simp [downloadPdf, h]
  · intro o s h
    unfold downloadPdf
    split
    · exact h
    · cases o <;> rfl
  · intro s
    unfold downloadPdf
    split
    · rfl
    · rfl

/-- C10 witness: the guard and reset behavior at concrete states — a
call with no analysis is a no-op, a re-entrant call is a no-op, and a
failing export leaves the flag false and nothing saved. -/
theorem c10_download_pdf_guard_witness :
    downloadPdf GenOutcome.ok
        { analysis := none, isGeneratingPdf := false, saved := false }
      = { analysis := none, isGeneratingPdf := false, saved := false } ∧
    downloadPdf GenOutcome.ok
        { analysis := some resultEmpty, isGeneratingPdf := true, saved := false }
      = { analysis := some resultEmpty, isGeneratingPdf := true, saved := false } ∧
    (downloadPdf GenOutcome.fail
        { analysis := some resultEmpty, isGeneratingPdf := false, saved := false }).isGeneratingPdf
      = false ∧
    (downloadPdf GenOutcome.fail
        { analysis := some resultEmpty, isGeneratingPdf := false, saved := false }).saved
      = false := by
  refine ⟨?_, ?_, ?_, ?_⟩
  · exact c10_download_pdf_guard.1 GenOutcome.ok _ rfl
  · exact c10_download_pdf_guard.2.1 GenOutcome.ok _ rfl
  · exact c10_download_pdf_guard.2.2.1 GenOutcome.fail _ rfl
  · exact c10_download_pdf_guard.2.2.2 _

theorem log_scheduleRender (d : ℕ) (s : DashState) :
    (scheduleRender d s).createdLog = s.createdLog := by
  unfold scheduleRender
  split <;> rfl

theorem log_foldlDestroy (l : List (ℕ × ChartKind)) (s : DashState) :
    (l.foldl (fun acc c => destroyChart c.1 acc) s).createdLog = s.createdLog := by
  induction l generalizing s with
  | nil => rfl
  | cons c rest ih => simpa [List.foldl] using ih (destroyChart c.1 s)

theorem log_destroyAllTracked (s : DashState) :
    (destroyAllTracked s).createdLog = s.createdLog := by
  unfold destroyAllTracked
  simpa using log_foldlDestroy s.charts s

theorem log_finishPass (dom : Dom) (hasData : Bool) (s : DashState) :
    (finishPass dom hasData s).createdLog = s.createdLog := by
  simp only [finishPass, scheduleRender]
  split_ifs <;> simp

theorem log_destroySlot (k : ChartKind) (s : DashState) :
    (destroySlot k s).createdLog = s.createdLog := by
  unfold destroySlot
  cases k
  · cases s.radarSlot <;> rfl
  · cases s.barSlot <;> rfl
  · cases s.doughSlot <;> rfl

theorem countRB_doughStep (dom : Dom) (a : AnalysisResult) (s t : DashState)
    (h : doughStep dom a s = Sum.inl t ∨ doughStep dom a s = Sum.inr t) :
    t.createdLog.count ChartKind.radar = s.createdLog.count ChartKind.radar ∧
    t.createdLog.count ChartKind.bar = s.createdLog.count ChartKind.bar := by
  revert h
  unfold doughStep
  split_ifs <;> rintro (h | h) <;> cases h <;>
    simp [log_scheduleRender, createChart, log_destroySlot, List.count_append]

theorem countRB_passCoreEmpty (dom : Dom) (a : AnalysisResult) (hd : Bool)
    (s2 : DashState) :
    (match doughStep dom a s2 with
      | Sum.inl aborted => aborted
      | Sum.inr s4 => finishPass dom hd s4).createdLog.count ChartKind.radar
        = s2.createdLog.count ChartKind.radar ∧
    (match doughStep dom a s2 with
      | Sum.inl aborted => aborted
      | Sum.inr s4 => finishPass dom hd s4).createdLog.count ChartKind.bar
        = s2.createdLog.count ChartKind.bar := by
  rcases h : doughStep dom a s2 with t | t
  · exact countRB_doughStep dom a s2 t (Or.inl h)
  · have hc := countRB_doughStep dom a s2 t (Or.inr h)
    dsimp only
    constructor
    · rw [log_finishPass]
      exact hc.1
    · rw [log_finishPass]
      exact hc.2

theorem asObjBench_keys (bench : List (String × Benchmark)) :
    (asObjBench bench).map Prod.fst = bench.map Prod.fst := by
  induction bench with
  | nil => rfl
  | cons p rest ih =>
    simp only [asObjBench, List.map_cons] at *
    rw [ih]

theorem asObjBench_lookup (bench : List (String × Benchmark)) (k : String) :
    (asObjBench bench).lookup k = (bench.lookup k).map BenchVal.obj := by
  induction bench with
  | nil => rfl
  | cons p rest ih =>
    obtain ⟨k2, b⟩ := p
    simp only [asObjBench, List.map_cons, List.lookup] at *
    cases hbeq : k == k2
    · simpa [hbeq] using ih
    · simp [hbeq]

theorem lookup_of_mem_keys {bench : List (String × Benchmark)} {k : String}
    (h : k ∈ bench.map Prod.fst) : ∃ b, bench.lookup k = some b := by
  induction bench with
  | nil => simp at h
  | cons p rest ih =>
    obtain ⟨k2, b⟩ := p
    simp only [List.map_cons, List.mem_cons] at h
    by_cases hk : k = k2
    · exact ⟨b, by simp [List.lookup, hk]⟩
    · rcases h with h | h
      · exact absurd h hk
      · obtain ⟨b2, hb2⟩ := ih h
        refine ⟨b2, ?_⟩
        have hbeq : (k == k2) = false := by
          simp [hk]
        simp only [List.lookup, hbeq]
        exact hb2

theorem mapExcept_ok {β : Type} (f : String → Except String β) (g : String → β)
    (l : List String) (h : ∀ x ∈ l, f x = Except.ok (g x)) :
    mapExcept f l = Except.ok (l.map g) := by
  induction l with
  | nil => rfl
  | cons k rest ih =>
    simp only [mapExcept, h k (List.mem_cons_self k rest),
      ih (fun x hx => h x (List.mem_cons_of_mem k hx)), List.map_cons]

/-- Refinement: on a result whose benchmark entries are all well-shaped
objects, the raw (throwing) series computation never raises and agrees
with the total model. -/
theorem metricSeriesRaw_wellformed (bench : List (String × Benchmark))
    (est : List (String × Estimate)) (rel : List (String × String))
    (em : Option (List (String × ExtVal))) :
    metricSeriesRaw (asObjBench bench) est rel em
      = Except.ok (metricSeries
          (AnalysisResult.mk bench (some (LlmBenchmark.mk est rel)) none em)) := by
  have hku : rawChartKeys (asObjBench bench) est
      = chartKeys (AnalysisResult.mk bench (some (LlmBenchmark.mk est rel)) none em) := by
    unfold rawChartKeys chartKeys
    simp [estimatesOf, asObjBench_keys]
  have hshape : chartKeys (AnalysisResult.mk bench (some (LlmBenchmark.mk est rel)) none em)
      = (bench.map Prod.fst, false) ∨
      chartKeys (AnalysisResult.mk bench (some (LlmBenchmark.mk est rel)) none em)
      = (est.map Prod.fst, true) := by
    unfold chartKeys
    by_cases hc : ((bench.map Prod.fst).isEmpty && !((est.map Prod.fst).isEmpty)) = true
    · right
      simp [estimatesOf, hc]
    · left
      simp [estimatesOf, hc]
  have hperc : ∀ u keys, (u = false → keys = bench.map Prod.fst) →
      mapExcept (percentileForRaw u (asObjBench bench) rel) keys
        = Except.ok (keys.map (percentileFor u bench rel)) := by
    intro u keys hkb
    apply mapExcept_ok
    intro k hk
    cases u
    · obtain ⟨b, hb⟩ := lookup_of_mem_keys (by rw [← hkb rfl]; exact hk)
      simp [percentileForRaw, percentileFor, benchFieldRaw, asObjBench_lookup, hb]
    · simp [percentileForRaw, percentileFor]
  have hcomp : ∀ u keys, (u = false → keys = bench.map Prod.fst) →
      mapExcept (companyValForRaw u (asObjBench bench) em est) keys
        = Except.ok (keys.map (companyValFor
            (AnalysisResult.mk bench (some (LlmBenchmark.mk est rel)) none em) u)) := by
    intro u keys hkb
    apply mapExcept_ok
    intro k hk
    cases u
    · obtain ⟨b, hb⟩ := lookup_of_mem_keys (by rw [← hkb rfl]; exact hk)
      simp [companyValForRaw, companyValFor, benchFieldRaw, asObjBench_lookup, hb]
    · simp [companyValForRaw, companyValFor, unitFor, estimatesOf]
  have hmed : ∀ u keys, (u = false → keys = bench.map Prod.fst) →
      mapExcept (medianForRaw u (asObjBench bench) est) keys
        = Except.ok (keys.map (medianFor
            (AnalysisResult.mk bench (some (LlmBenchmark.mk est rel)) none em) u)) := by
    intro u keys hkb
    apply mapExcept_ok
    intro k hk
    cases u
    · obtain ⟨b, hb⟩ := lookup_of_mem_keys (by rw [← hkb rfl]; exact hk)
      simp [medianForRaw, medianFor, benchFieldRaw, asObjBench_lookup, hb]
    · simp [medianForRaw, medianFor, estimatesOf]
  unfold metricSeriesRaw metricSeries
  rw [hku]
  rcases hshape with hL | hL <;> rw [hL] <;> dsimp only
  · rw [hperc false _ (fun _ => rfl), hcomp false _ (fun _ => rfl),
      hmed false _ (fun _ => rfl)]
    rfl
  · rw [hperc true _ (fun hfalse => by cases hfalse),
      hcomp true _ (fun hfalse => by cases hfalse),
      hmed true _ (fun hfalse => by cases hfalse)]
    rfl

/-- C6 counterexample: the mapper is not total over ill-formed input —
for a result whose benchmarks record holds a null entry (reachable,
since the result is parsed session-storage JSON with no validation),
the first per-key property read throws a TypeError and the series
computation aborts, contradicting the claim that the mapping never
raises over any well- or ill-formed result. -/
theorem c6_mapper_raises_on_null_entry :
    metricSeriesRaw [("arr", BenchVal.nullv)] [] [] none
      = Except.error "TypeError" := by
  rfl

/-- C6 (amended): the key-set selection — benchmark keys when
non-empty, else estimate keys with the use-estimates flag, else empty —
is total; with both sources empty the derived series is empty and a
render pass constructs no radar or bar chart; and over any result whose
benchmark entries are all well-shaped objects the raw (throwing) series
computation never raises and agrees with the total model.  Totality
does NOT extend to arbitrary ill-formed input: a null benchmark entry
makes the per-key property reads throw, as the counterexample shows. -/
theorem c6_total_mapping_key_selection :
    (∀ a : AnalysisResult, a.benchmarks ≠ [] →
        chartKeys a = (a.benchmarks.map Prod.fst, false)) ∧
    (∀ a : AnalysisResult, a.benchmarks = [] → estimatesOf a ≠ [] →
        chartKeys a = ((estimatesOf a).map Prod.fst, true)) ∧
    (∀ a : AnalysisResult, a.benchmarks = [] → estimatesOf a = [] →
        chartKeys a = ([], false) ∧
        metricSeries a = { percentiles := [], companyVals := [], medians := [] }) ∧
    (∀ (dom : Dom) (s : DashState) (a : AnalysisResult),
        s.analysis = some a → a.benchmarks = [] → estimatesOf a = [] →
        (renderCharts dom s).createdLog.count ChartKind.radar
            = s.createdLog.count ChartKind.radar ∧
        (renderCharts dom s).createdLog.count ChartKind.bar
            = s.createdLog.count ChartKind.bar) ∧
    (∀ (bench : List (String × Benchmark)) (est : List (String × Estimate))
        (rel : List (String × String)) (em : Option (List (String × ExtVal))),
        metricSeriesRaw (asObjBench bench) est rel em
          = Except.ok (metricSeries
              (AnalysisResult.mk bench (some (LlmBenchmark.mk est rel)) none em))) := by
  have hkeys : ∀ a : AnalysisResult, a.benchmarks = [] → estimatesOf a = [] →
      chartKeys a = ([], false) := by
    intro a h1 h2
    simp [chartKeys, h1, h2]
  refine ⟨?_, ?_, ?_, ?_, metricSeriesRaw_wellformed⟩
  · intro a h
    have hm : (a.benchmarks.map Prod.fst).isEmpty = false := by
      cases hb : a.benchmarks
      · exact absurd hb h
      · simp
    simp [chartKeys, hm]
  · intro a h1 h2
    have hm : ((estimatesOf a).map Prod.fst).isEmpty = false := by
      cases hb : estimatesOf a
      · exact absurd hb h2
      · simp
    simp [chartKeys, h1, hm]
  · intro a h1 h2
    refine ⟨hkeys a h1 h2, ?_⟩
    simp [metricSeries, hkeys a h1 h2]
  · intro dom s a hA h1 h2
    unfold renderCharts
    rw [hA]
    dsimp only
    by_cases hR : s.isRendering
    · simp [hR]
    · simp only [hR, Bool.false_eq_true, if_false]
      split
      · constructor <;> rfl
      · rw [hkeys a h1 h2]
        simp only [List.isEmpty_nil, if_true]
        obtain ⟨hr, hb⟩ := countRB_passCoreEmpty dom a
          (!true || (composite a).isSome)
          (destroyAllTracked { s with
            analysis := some a
            renderAttempts := s.renderAttempts + 1
            isRendering := true })
        rw [log_destroyAllTracked] at hr hb
        exact ⟨hr, hb⟩

/-- C6 witness: a result with empty benchmarks and empty estimates
yields the empty key set and empty series, and a render pass over it in
a fully mounted DOM creates no radar or bar chart. -/
theorem c6_total_mapping_key_selection_witness :
    chartKeys resultWithBenchAndScore = (["arr"], false) ∧
    chartKeys resultEmpty = ([], false) ∧
    metricSeries resultEmpty = { percentiles := [], companyVals := [], medians := [] } ∧
    (renderCharts domAll { initState resultEmpty with renderTimer := none }).createdLog.count
        ChartKind.radar = 0 ∧
    (renderCharts domAll { initState resultEmpty with renderTimer := none }).createdLog.count
        ChartKind.bar = 0 ∧
    metricSeriesRaw (asObjBench [("arr", bmFix)]) [] [] none
      = Except.ok (metricSeries
          (AnalysisResult.mk [("arr", bmFix)] (some (LlmBenchmark.mk [] [])) none none)) := by
  refine ⟨?_, ?_, ?_, ?_, ?_, ?_⟩
  · exact c6_total_mapping_key_selection.1 resultWithBenchAndScore (by decide)
  · exact (c6_total_mapping_key_selection.2.2.1 resultEmpty rfl rfl).1
  · exact (c6_total_mapping_key_selection.2.2.1 resultEmpty rfl rfl).2
  · exact (c6_total_mapping_key_selection.2.2.2.1 domAll
      { initState resultEmpty with renderTimer := none } resultEmpty rfl rfl rfl).1
  · exact (c6_total_mapping_key_selection.2.2.2.1 domAll
      { initState resultEmpty with renderTimer := none } resultEmpty rfl rfl rfl).2
  · exact c6_total_mapping_key_selection.2.2.2.2 [("arr", bmFix)] [] [] none

/-- C3: over identical data (non-empty key set plus a composite score)
and an identical fully mounted, sized DOM, each of two consecutive
render passes leaves exactly 3 chart instances live, the tracked charts
are exactly the live ones, every slot holds exactly the newest chart
bound to it, and no instance of the first pass survives the second —
no slot ever holds two live instances. -/
theorem c3_no_double_binding_three_live :
    ∀ a : AnalysisResult,
      (chartKeys a).1.isEmpty = false → (composite a).isSome = true →
      (fireTimer domAll (initState a)).live.length = 3 ∧
      (fireTimer domAll (initState a)).charts.map Prod.fst
        = (fireTimer domAll (initState a)).live.reverse ∧
      (fireTimer domAll (scheduleRender 0 (fireTimer domAll (initState a)))).live.length = 3 ∧
      (fireTimer domAll (scheduleRender 0 (fireTimer domAll (initState a)))).charts.map Prod.fst
        = (fireTimer domAll (scheduleRender 0 (fireTimer domAll (initState a)))).live.reverse ∧
      (fireTimer domAll (scheduleRender 0 (fireTimer domAll (initState a)))).radarSlot = some 3 ∧
      (fireTimer domAll (scheduleRender 0 (fireTimer domAll (initState a)))).barSlot = some 4 ∧
      (fireTimer domAll (scheduleRender 0 (fireTimer domAll (initState a)))).doughSlot = some 5 ∧
      (∀ i ∈ (fireTimer domAll (scheduleRender 0 (fireTimer domAll (initState a)))).live,
        i ∉ (fireTimer domAll (initState a)).live) := by
  intro a hk hc
  have e1 : fireTimer domAll (initState a) = passOneState a := by
    simp [fireTimer, initState, renderCharts, hk, hc, destroyAllTracked, radarStep,
      barStep, doughStep, finishPass, scheduleRender, createChart, destroySlot,
      destroyChart, domAll, passOneState]
  rw [e1]
  have e2 : fireTimer domAll (scheduleRender 0 (passOneState a)) = passTwoState a := by
    simp [fireTimer, renderCharts, hk, hc, destroyAllTracked, radarStep,
      barStep, doughStep, finishPass, scheduleRender, createChart, destroySlot,
      destroyChart, domAll, List.foldl, passOneState, passTwoState]
  rw [e2]
  refine ⟨rfl, rfl, rfl, rfl, rfl, rfl, rfl, ?_⟩
  intro i hi
  simp only [passTwoState, List.mem_cons, List.not_mem_nil, or_false] at hi
  simp only [passOneState, List.mem_cons, List.not_mem_nil, or_false]
  rcases hi with rfl | rfl | rfl <;> omega

/-- C3 witness: the two-pass instance over the concrete fixture result
with one benchmark key and a composite score. -/
theorem c3_no_double_binding_three_live_witness :
    (fireTimer domAll (initState resultWithBenchAndScore)).live.length = 3 ∧
    (fireTimer domAll (scheduleRender 0
        (fireTimer domAll (initState resultWithBenchAndScore)))).live.length = 3 := by
  have h := c3_no_double_binding_three_live resultWithBenchAndScore (by decide) (by decide)
  exact ⟨h.1, h.2.2.1⟩

theorem ensureSpace_le (k : ℕ) (s : PdfState) (hk : 1 ≤ k) :
    (ensureSpace k s).y + lineHeight ≤ printableBound := by
  unfold ensureSpace
  split_ifs with h
  · norm_num [pageBreak, pdfMargin, headerHeight, lineHeight, printableBound,
      pageHeight, footerHeight]
  · push_neg at h
    have h1 : (1 : ℚ) ≤ (k : ℚ) := by exact_mod_cast hk
    have hpos : (0 : ℚ) ≤ lineHeight := by norm_num [lineHeight]
    have h6 : lineHeight ≤ (k : ℚ) * lineHeight := by nlinarith
    linarith

theorem emittedGood_ensureSpace (k : ℕ) (s : PdfState) :
    emittedGood (ensureSpace k s) = emittedGood s := by
  unfold ensureSpace pageBreak emittedGood
  split_ifs <;> rfl

theorem emittedGood_advance (d : ℚ) (s : PdfState) :
    emittedGood (advance d s) = emittedGood s := rfl

theorem emittedGood_emitLine (s : PdfState) (hy : s.y + lineHeight ≤ printableBound)
    (hs : emittedGood s = true) : emittedGood (emitLine s) = true := by
  unfold emittedGood emitLine at *
  simp only [List.all_cons, Bool.and_eq_true, decide_eq_true_eq]
  exact ⟨hy, hs⟩

theorem emittedGood_emitNLines (n : ℕ) (s : PdfState) (hs : emittedGood s = true) :
    emittedGood (emitNLines n s) = true := by
  induction n generalizing s with
  | zero => exact hs
  | succ n ih =>
    apply ih
    rw [emittedGood_advance]
    apply emittedGood_emitLine
    · exact ensureSpace_le 1 s le_rfl
    · rw [emittedGood_ensureSpace]
      exact hs

theorem emittedGood_addTitle (s : PdfState) (hs : emittedGood s = true) :
    emittedGood (addTitle s) = true := by
  unfold addTitle
  rw [emittedGood_advance]
  exact emittedGood_emitLine _ (ensureSpace_le 2 s (by norm_num))
    ((emittedGood_ensureSpace 2 s).trans hs)

theorem emittedGood_addSection (s : PdfState) (hs : emittedGood s = true) :
    emittedGood (addSection s) = true := by
  unfold addSection
  rw [emittedGood_advance]
  exact emittedGood_emitLine _ (ensureSpace_le 2 s (by norm_num))
    ((emittedGood_ensureSpace 2 s).trans hs)

theorem emittedGood_addLabel (s : PdfState) (hs : emittedGood s = true) :
    emittedGood (addLabel s) = true := by
  unfold addLabel
  rw [emittedGood_advance]
  exact emittedGood_emitLine _ (ensureSpace_le 1 s le_rfl)
    ((emittedGood_ensureSpace 1 s).trans hs)

theorem emittedGood_addRiskHeader (s : PdfState) (hs : emittedGood s = true) :
    emittedGood (addRiskHeader s) = true := by
  unfold addRiskHeader
  rw [emittedGood_advance]
  exact emittedGood_emitLine _ (ensureSpace_le 1 s le_rfl)
    ((emittedGood_ensureSpace 1 s).trans hs)

theorem emittedGood_addParagraph (parts : List ℕ) (s : PdfState)
    (hs : emittedGood s = true) : emittedGood (addParagraph parts s) = true := by
  induction parts generalizing s with
  | nil => exact hs
  | cons n rest ih =>
    unfold addParagraph at *
    simp only [List.foldl]
    apply ih
    unfold addParaPart
    rw [emittedGood_advance]
    exact emittedGood_emitNLines n s hs

theorem emittedGood_addBulletItem (n : ℕ) (s : PdfState) (hn : 1 ≤ n)
    (hs : emittedGood s = true) : emittedGood (addBulletItem n s) = true := by
  unfold addBulletItem
  apply emittedGood_emitNLines
  rw [emittedGood_advance]
  exact emittedGood_emitLine _ (ensureSpace_le n s hn)
    ((emittedGood_ensureSpace n s).trans hs)

theorem emittedGood_foldBullets (items : List ℕ) :
    ∀ s : PdfState, items.all (fun n => decide (1 ≤ n)) = true →
    emittedGood s = true →
    emittedGood (items.foldl (fun acc n => addBulletItem n acc) s) = true := by
  induction items with
  | nil =>
    intro s _ hs
    exact hs
  | cons n rest ih =>
    intro s hi hs
    simp only [List.all_cons, Bool.and_eq_true, decide_eq_true_eq] at hi
    simp only [List.foldl]
    exact ih _ hi.2 (emittedGood_addBulletItem n s hi.1 hs)

theorem emittedGood_addBullets (items : List ℕ) (s : PdfState)
    (hi : items.all (fun n => decide (1 ≤ n)) = true)
    (hs : emittedGood s = true) : emittedGood (addBullets items s) = true := by
  unfold addBullets
  split
  · exact hs
  · rw [emittedGood_advance]
    exact emittedGood_foldBullets items s hi hs

theorem emittedGood_runCmds (cmds : List PdfCmd) :
    ∀ s : PdfState, bulletsOk cmds = true → emittedGood s = true →
    emittedGood (runCmds cmds s) = true := by
  induction cmds with
  | nil =>
    intro s _ hs
    exact hs
  | cons c rest ih =>
    intro s hb hs
    unfold bulletsOk at hb
    simp only [List.all_cons, Bool.and_eq_true] at hb
    have hstep : emittedGood (runCmd s c) = true := by
      cases c with
      | title => exact emittedGood_addTitle s hs
      | sectionHeader => exact emittedGood_addSection s hs
      | label => exact emittedGood_addLabel s hs
      | riskHeader => exact emittedGood_addRiskHeader s hs
      | paragraph parts => exact emittedGood_addParagraph parts s hs
      | bullets items => exact emittedGood_addBullets items s hb.1 hs
    exact ih (runCmd s c) hb.2 hstep

/-- C7: ensureSpace breaks the page — new page, cursor reset to just
below the redrawn header — exactly when the needed lines do not fit
above the footer band, and leaves the state unchanged when they do;
consequently, for every block sequence (with every bullet item wrapping
to at least one line) every emitted body line sits a full line height
above the printable bound, so no text line is ever placed into the
footer band without a page break first. -/
theorem c7_lines_stay_above_footer :
    (∀ (n : ℕ) (s : PdfState), printableBound < s.y + n * lineHeight →
        ensureSpace n s = { s with page := s.page + 1, y := pdfMargin + headerHeight }) ∧
    (∀ (n : ℕ) (s : PdfState), s.y + n * lineHeight ≤ printableBound →
        ensureSpace n s = s) ∧
    (∀ cmds : List PdfCmd, bulletsOk cmds = true →
        emittedGood (runCmds cmds initPdf) = true) := by
  refine ⟨?_, ?_, ?_⟩
  · intro n s h
    unfold ensureSpace pageBreak
    rw [if_pos h]
  · intro n s h
    unfold ensureSpace
    rw [if_neg (not_lt.2 h)]
  · intro cmds hb
    exact emittedGood_runCmds cmds initPdf hb rfl

/-- C7 witness: a block that does not fit triggers the page break, one
that fits is a no-op, and the demo document (a long spilling paragraph,
bullets, titles, labels) keeps every emitted line above the footer
band. -/
theorem c7_lines_stay_above_footer_witness :
    ensureSpace 100 initPdf
      = { initPdf with page := initPdf.page + 1, y := pdfMargin + headerHeight } ∧
    ensureSpace 1 initPdf = initPdf ∧
    emittedGood (runCmds demoCmds initPdf) = true := by
  refine ⟨?_, ?_, ?_⟩
  · exact c7_lines_stay_above_footer.1 100 initPdf
      (by norm_num [initPdf, printableBound, pageHeight, pdfMargin, footerHeight,
        headerHeight, lineHeight])
  · exact c7_lines_stay_above_footer.2.1 1 initPdf
      (by norm_num [initPdf, printableBound, pageHeight, pdfMargin, footerHeight,
        headerHeight, lineHeight])
  · exact c7_lines_stay_above_footer.2.2 demoCmds (by decide)

theorem mem_stripZeroWidth {c : Char} {l : List Char} (h : c ∈ stripZeroWidth l) :
    c ∈ l ∧ isZeroWidth c = false := by
  unfold stripZeroWidth at h
  have h2 := List.mem_filter.1 h
  exact ⟨h2.1, by simpa using h2.2⟩

theorem mem_replaceINR {c : Char} {l : List Char} (h : c ∈ replaceINR l) :
    (c ∈ l ∧ isRupeeOrSup c = false) ∨ c ∈ "INR ".data := by
  unfold replaceINR at h
  rcases List.mem_flatMap.1 h with ⟨b, hb, hc⟩
  by_cases hr : isRupeeOrSup b
  · right
    simpa [hr] using hc
  · have hcb : c = b := by simpa [hr] using hc
    subst hcb
    exact Or.inl ⟨hb, by simpa using hr⟩

theorem map_id_of_fix {f : Char → Char} (l : List Char) (h : ∀ c ∈ l, f c = c) :
    l.map f = l := by
  induction l with
  | nil => rfl
  | cons c rest ih =>
    simp only [List.map_cons, h c (List.mem_cons_self c rest),
      ih (fun d hd => h d (List.mem_cons_of_mem c hd))]

theorem replaceINR_fix (l : List Char) (h : ∀ c ∈ l, isRupeeOrSup c = false) :
    replaceINR l = l := by
  induction l with
  | nil => rfl
  | cons c rest ih =>
    unfold replaceINR at *
    simp only [List.flatMap_cons, h c (List.mem_cons_self c rest), Bool.false_eq_true,
      if_false, List.singleton_append,
      ih (fun d hd => h d (List.mem_cons_of_mem c hd))]

theorem sanitize_all_sanitized (l : List Char) :
    ∀ c ∈ replaceDashes (replaceDoubleQuotes (replaceSingleQuotes
        (replaceNbsp (replaceINR (stripZeroWidth l))))), sanitizedChar c = true := by
  intro c hc
  rcases List.mem_map.1 hc with ⟨b4, hb4, rfl⟩
  rcases List.mem_map.1 hb4 with ⟨b3, hb3, rfl⟩
  rcases List.mem_map.1 hb3 with ⟨b2, hb2, rfl⟩
  rcases List.mem_map.1 hb2 with ⟨b1, hb1, rfl⟩
  rcases mem_replaceINR hb1 with ⟨hmem, hrup⟩ | hinr
  · have hzw := (mem_stripZeroWidth hmem).2
    by_cases h1 : b1.toNat = 0xA0
    · have hb : b1 = Char.ofNat 0xA0 := by
        have he := Char.ofNat_toNat b1
        rw [h1] at he
        exact he.symm
      subst hb
      decide
    · by_cases h2a : b1.toNat = 0x2018
      · have hb : b1 = Char.ofNat 0x2018 := by
          have he := Char.ofNat_toNat b1
          rw [h2a] at he
          exact he.symm
        subst hb
        decide
      · by_cases h2b : b1.toNat = 0x2019
        · have hb : b1 = Char.ofNat 0x2019 := by
            have he := Char.ofNat_toNat b1
            rw [h2b] at he
            exact he.symm
          subst hb
          decide
        · by_cases h3a : b1.toNat = 0x201C
          · have hb : b1 = Char.ofNat 0x201C := by
              have he := Char.ofNat_toNat b1
              rw [h3a] at he
              exact he.symm
            subst hb
            decide
          · by_cases h3b : b1.toNat = 0x201D
            · have hb : b1 = Char.ofNat 0x201D := by
                have he := Char.ofNat_toNat b1
                rw [h3b] at he
                exact he.symm
              subst hb
              decide
            · by_cases h4a : b1.toNat = 0x2013
              · have hb : b1 = Char.ofNat 0x2013 := by
                  have he := Char.ofNat_toNat b1
                  rw [h4a] at he
                  exact he.symm
                subst hb
                decide
              · by_cases h4b : b1.toNat = 0x2014
                · have hb : b1 = Char.ofNat 0x2014 := by
                    have he := Char.ofNat_toNat b1
                    rw [h4b] at he
                    exact he.symm
                  subst hb
                  decide
                · simp [sanitizedChar, h1, h2a, h2b, h3a, h3b, h4a, h4b, hzw, hrup]
  · have hb1c : b1 = 'I' ∨ b1 = 'N' ∨ b1 = 'R' ∨ b1 = ' ' := by
      simpa using hinr
    rcases hb1c with rfl | rfl | rfl | rfl <;> decide

theorem sanitize_fix (l : List Char) (h : ∀ c ∈ l, sanitizedChar c = true) :
    replaceDashes (replaceDoubleQuotes (replaceSingleQuotes
      (replaceNbsp (replaceINR (stripZeroWidth l))))) = l := by
  have hparts : ∀ c ∈ l, isZeroWidth c = false ∧ isRupeeOrSup c = false ∧
      ¬(c.toNat = 0xA0) ∧ ¬(c.toNat = 0x2018) ∧ ¬(c.toNat = 0x2019) ∧
      ¬(c.toNat = 0x201C) ∧ ¬(c.toNat = 0x201D) ∧
      ¬(c.toNat = 0x2013) ∧ ¬(c.toNat = 0x2014) := by
    intro c hc
    have hsc := h c hc
    unfold sanitizedChar at hsc
    simp only [Bool.and_eq_true, Bool.not_eq_true', Bool.or_eq_false_iff,
      decide_eq_false_iff_not] at hsc
    tauto
  have h0 : stripZeroWidth l = l := by
    unfold stripZeroWidth
    apply List.filter_eq_self.2
    intro c hc
    simp [(hparts c hc).1]
  rw [h0]
  have h1 : replaceINR l = l :=
    replaceINR_fix l (fun c hc => (hparts c hc).2.1)
  rw [h1]
  have h2 : replaceNbsp l = l := by
    unfold replaceNbsp
    apply map_id_of_fix
    intro c hc
    simp [(hparts c hc).2.2.1]
  rw [h2]
  have h3 : replaceSingleQuotes l = l := by
    unfold replaceSingleQuotes
    apply map_id_of_fix
    intro c hc
    simp [(hparts c hc).2.2.2.1, (hparts c hc).2.2.2.2.1]
  rw [h3]
  have h4 : replaceDoubleQuotes l = l := by
    unfold replaceDoubleQuotes
    apply map_id_of_fix
    intro c hc
    simp [(hparts c hc).2.2.2.2.2.1, (hparts c hc).2.2.2.2.2.2.1]
  rw [h4]
  unfold replaceDashes
  apply map_id_of_fix
  intro c hc
  simp [(hparts c hc).2.2.2.2.2.2.2.1, (hparts c hc).2.2.2.2.2.2.2.2]

/-- C8 counterexample: sanitizeText is not idempotent on every string.
With the faithful NFKC fragment, for the input a, zero-width space,
combining acute accent, the first pass leaves the sequence unnormalized
(the zero-width space blocks composition) and strips the zero-width
space, exposing the letter-plus-accent pair; the second pass's NFKC
composes it into the precomposed letter, so sanitizing twice differs
from sanitizing once. -/
theorem c8_sanitize_not_idempotent_under_nfkc :
    sanitizeTextWith nfkcFrag (sanitizeTextWith nfkcFrag
        (String.mk ['a', Char.ofNat 0x200B, Char.ofNat 0x301]))
      ≠ sanitizeTextWith nfkcFrag
        (String.mk ['a', Char.ofNat 0x200B, Char.ofNat 0x301]) := by
  decide

/-- C8 (amended): the replacement passes of sanitizeText are idempotent
as a pure code-point rewrite; for ANY normalize behavior the sanitized
output contains none of the rewritten code points — zero-width marks
and the byte-order mark, the rupee sign and superscript one, the
no-break space, curly quotes and en/em dashes — so none reach text
measurement; and the whole function is idempotent on every string whose
sanitized output is a fixed point of the normalize routine (which real
NFKC violates only when stripping a zero-width character exposes a new
composition, as the counterexample shows). -/
theorem c8_sanitize_pipeline_idempotent_ascii_safe :
    (∀ l : List Char, sanitizePasses (sanitizePasses l) = sanitizePasses l) ∧
    (∀ (nfkc : List Char → List Char) (s : String),
        (sanitizeTextWith nfkc s).data.all sanitizedChar = true) ∧
    (∀ (nfkc : List Char → List Char) (s : String),
        nfkc (sanitizeTextWith nfkc s).data = (sanitizeTextWith nfkc s).data →
        sanitizeTextWith nfkc (sanitizeTextWith nfkc s) = sanitizeTextWith nfkc s) := by
  refine ⟨?_, ?_, ?_⟩
  · intro l
    exact sanitize_fix _ (sanitize_all_sanitized l)
  · intro nfkc s
    unfold sanitizeTextWith
    split
    · rfl
    · exact List.all_eq_true.2 (sanitize_all_sanitized (nfkc s.data))
  · intro nfkc s hfix
    by_cases ht : sanitizeTextWith nfkc s = ""
    · rw [ht]
      rfl
    · conv_lhs => rw [sanitizeTextWith, if_neg ht]
      rw [hfix]
      by_cases hs : s = ""
      · subst hs
        exact absurd rfl ht
      · have hdef : sanitizeTextWith nfkc s = String.mk (sanitizePasses (nfkc s.data)) := by
          unfold sanitizeTextWith
          rw [if_neg hs]
        rw [hdef]
        exact congrArg String.mk (sanitize_fix _ (sanitize_all_sanitized (nfkc s.data)))

/-- C8 witness: the conditional idempotence and absence clauses at a
concrete input containing a curly quote and a rupee sign, whose
sanitized output the NFKC fragment fixes. -/
theorem c8_sanitize_pipeline_idempotent_ascii_safe_witness :
    sanitizeTextWith nfkcFrag (sanitizeTextWith nfkcFrag "a b’c₹d")
      = sanitizeTextWith nfkcFrag "a b’c₹d" ∧
    (sanitizeTextWith nfkcFrag "a b’c₹d").data.all sanitizedChar = true := by
  constructor
  · exact c8_sanitize_pipeline_idempotent_ascii_safe.2.2 nfkcFrag "a b’c₹d" (by decide)
  · exact c8_sanitize_pipeline_idempotent_ascii_safe.2.1 nfkcFrag "a b’c₹d"

/-- C9: stage canonicalization is an ordered first-match-wins pattern
chain — pre-seed before seed before angel before series-letter before
growth/late — with the cleaned title-cased 20-character-truncated
fallback for unmatched non-empty input and the empty string for empty
input.  The concrete cases: "series a" gives "Series A", "pre seed"
gives "Pre-Seed", "preseed" matches pre-seed before seed, "seed angel"
matches seed before angel, a long unmatched input is truncated with an
ellipsis, and the empty string stays empty. -/
theorem c9_stage_canonicalization :
    (∀ raw : String,
        asciiLowerStr (String.mk (trimWs raw.data)) ≠ "" →
        scanContains preSeedAt (asciiLowerStr (String.mk (trimWs raw.data))).data = false →
        containsSub "seed".data (asciiLowerStr (String.mk (trimWs raw.data))).data = false →
        containsSub "angel".data (asciiLowerStr (String.mk (trimWs raw.data))).data = false →
        scanSeries (asciiLowerStr (String.mk (trimWs raw.data))).data = none →
        containsSub "growth".data (asciiLowerStr (String.mk (trimWs raw.data))).data = false →
        containsSub "late".data (asciiLowerStr (String.mk (trimWs raw.data))).data = false →
        getStageLabel raw = stageFallback (asciiLowerStr (String.mk (trimWs raw.data)))) ∧
    getStageLabel "series a" = "Series A" ∧
    getStageLabel "pre seed" = "Pre-Seed" ∧
    getStageLabel "" = "" ∧
    getStageLabel "preseed" = "Pre-Seed" ∧
    getStageLabel "seed angel" = "Seed" ∧
    getStageLabel "angel series b" = "Angel" ∧
    getStageLabel "late-stage" = "Growth" ∧
    getStageLabel "some very long unmatched stage description indeed"
      = "Some Very Long Unmat…" := by
  refine ⟨?_, by decide, by decide, by decide, by decide, by decide, by decide,
    by decide, by decide⟩
  intro raw h0 h1 h2 h3 h4 h5 h6
  unfold getStageLabel
  simp only [h0, h1, h2, h3, h4, h5, h6, Bool.false_eq_true, if_false,
    Bool.or_self, ite_false]

/-- C9 witness: the fallback clause applied at a concrete unmatched
input. -/
theorem c9_stage_canonicalization_witness :
    getStageLabel "unicorn mode"
      = stageFallback (asciiLowerStr (String.mk (trimWs "unicorn mode".data))) := by
  exact c9_stage_canonicalization.1 "unicorn mode" (by decide) (by decide) (by decide)
    (by decide) (by decide) (by decide) (by decide)

end Startologer
